import Mathlib

/-!
Verification development for the tap-dynamics-bc extraction engine.

The Python sources (src/tap_dynamics_bc/auth.py, client.py, streams.py,
tap.py) are shallowly embedded below.  Strings are modelled as `List Char`;
Python library operations used by the code (str.split, str.lower, `in`,
urllib.parse.urlparse / parse_qs / unquote, datetime strftime) are modelled
as executable Lean functions that follow the CPython semantics on the
fragments the code exercises.
-/

/-- The character list of a string literal (Python str as `List Char`). -/
def lc (s : String) : List Char := s.data

/-! ### Python string primitives -/

/-- Index of the first occurrence of `sep` in `s` (Python `str.find`),
`none` when `sep` does not occur. -/
def findSub (sep : List Char) : List Char → Option Nat
  | [] => if sep.isPrefixOf ([] : List Char) then some 0 else none
  | c :: rest =>
      if sep.isPrefixOf (c :: rest) then some 0
      else (findSub sep rest).map (· + 1)

/-- Whether `sep` occurs as a contiguous substring of `s` (Python `sep in s`). -/
def containsSub (sep s : List Char) : Bool := (findSub sep s).isSome

/-- Fuel-driven worker for `pySplit`: repeatedly cut at the leftmost
occurrence of `sep`, exactly as Python `str.split(sep)` scans
left-to-right with non-overlapping matches. -/
def pySplitAux (sep : List Char) : Nat → List Char → List (List Char)
  | 0, s => [s]
  | Nat.succ fuel, s =>
      match findSub sep s with
      | none => [s]
      | some i => s.take i :: pySplitAux sep fuel (s.drop (i + sep.length))

/-- Python `s.split(sep)` for a non-empty separator `sep`. -/
def pySplit (sep s : List Char) : List (List Char) :=
  pySplitAux sep (s.length + 1) s

/-- Python `lst[-1]` on the (always non-empty) result of `str.split`. -/
def pyLast (l : List (List Char)) : List Char := l.getLastD []

/-- Python `lst[0]` on the (always non-empty) result of `str.split`. -/
def pyFirst (l : List (List Char)) : List Char := l.headD []

/-- Python `s.replace(a, b)` for single characters. -/
def pyReplace (a b : Char) (s : List Char) : List Char :=
  s.map (fun c => if c == a then b else c)

/-- Python `str.lower` (ASCII case mapping, which is all the code uses). -/
def pyLower (s : List Char) : List Char := s.map Char.toLower

/-! ### urllib.parse: unquote -/

/-- Value of a hexadecimal digit character. -/
def hexVal (c : Char) : Option Nat :=
  if '0' ≤ c ∧ c ≤ '9' then some (c.toNat - '0'.toNat)
  else if 'a' ≤ c ∧ c ≤ 'f' then some (c.toNat - 'a'.toNat + 10)
  else if 'A' ≤ c ∧ c ≤ 'F' then some (c.toNat - 'A'.toNat + 10)
  else none

/-- One token of a percent-encoded string: a decoded escape byte or a
literal character. -/
inductive PctTok : Type
  | byte (b : Nat)
  | lit (c : Char)
deriving DecidableEq

/-- Fuel-driven worker for `pctTokens`. -/
def pctTokensAux : Nat → List Char → List PctTok
  | 0, _ => []
  | _, [] => []
  | Nat.succ fuel, '%' :: rest =>
      match rest with
      | a :: b :: rest2 =>
          match hexVal a, hexVal b with
          | some x, some y => PctTok.byte (16 * x + y) :: pctTokensAux fuel rest2
          | _, _ => PctTok.lit '%' :: pctTokensAux fuel rest
      | _ => PctTok.lit '%' :: pctTokensAux fuel rest
  | Nat.succ fuel, c :: rest => PctTok.lit c :: pctTokensAux fuel rest

/-- Tokenise a percent-encoded string: `%XY` with two hex digits becomes a
byte, anything else stays literal (CPython `unquote` keeps a `%` that is
not followed by two hex digits). -/
def pctTokens (s : List Char) : List PctTok := pctTokensAux s.length s

/-- The Unicode replacement character U+FFFD. -/
def repChar : Char := Char.ofNat 65533

/-- Is `b` a UTF-8 continuation byte? -/
def isCont (b : Nat) : Bool := decide (128 ≤ b ∧ b ≤ 191)

/-- Fuel-driven UTF-8 decoder with replacement-character error handling
(the `errors="replace"` policy `unquote` uses). -/
def utf8DecodeAux : Nat → List Nat → List Char
  | 0, _ => []
  | _, [] => []
  | Nat.succ fuel, b :: rest =>
      if b < 128 then Char.ofNat b :: utf8DecodeAux fuel rest
      else if 194 ≤ b ∧ b ≤ 223 then
        match rest with
        | c1 :: rest2 =>
            if isCont c1 then
              Char.ofNat ((b - 192) * 64 + (c1 - 128)) :: utf8DecodeAux fuel rest2
            else repChar :: utf8DecodeAux fuel rest
        | [] => [repChar]
      else if 224 ≤ b ∧ b ≤ 239 then
        match rest with
        | c1 :: c2 :: rest2 =>
            if ((b = 224 ∧ 160 ≤ c1 ∧ c1 ≤ 191) ∨
                (b = 237 ∧ 128 ≤ c1 ∧ c1 ≤ 159) ∨
                (b ≠ 224 ∧ b ≠ 237 ∧ isCont c1 = true)) ∧ isCont c2 = true then
              Char.ofNat ((b - 224) * 4096 + (c1 - 128) * 64 + (c2 - 128)) ::
                utf8DecodeAux fuel rest2
            else repChar :: utf8DecodeAux fuel rest
        | _ => repChar :: utf8DecodeAux fuel rest.tail
      else if 240 ≤ b ∧ b ≤ 244 then
        match rest with
        | c1 :: c2 :: c3 :: rest2 =>
            if ((b = 240 ∧ 144 ≤ c1 ∧ c1 ≤ 191) ∨
                (b = 244 ∧ 128 ≤ c1 ∧ c1 ≤ 143) ∨
                (b ≠ 240 ∧ b ≠ 244 ∧ isCont c1 = true)) ∧
               isCont c2 = true ∧ isCont c3 = true then
              Char.ofNat ((b - 240) * 262144 + (c1 - 128) * 4096 +
                  (c2 - 128) * 64 + (c3 - 128)) :: utf8DecodeAux fuel rest2
            else repChar :: utf8DecodeAux fuel rest
        | _ => repChar :: utf8DecodeAux fuel rest.tail
      else repChar :: utf8DecodeAux fuel rest

/-- UTF-8 decode a byte run with replacement-character error handling. -/
def utf8Decode (bs : List Nat) : List Char := utf8DecodeAux bs.length bs

/-- The maximal leading run of escape bytes in a token list. -/
def leadingBytes : List PctTok → List Nat
  | PctTok.byte b :: rest => b :: leadingBytes rest
  | _ => []

/-- Drop the maximal leading run of escape bytes. -/
def dropBytes : List PctTok → List PctTok
  | PctTok.byte _ :: rest => dropBytes rest
  | l => l

/-- Fuel-driven assembly of `unquote`: literal characters pass through, each
maximal run of escape bytes is UTF-8 decoded (as CPython buffers
consecutive escapes before decoding). -/
def unquoteAux : Nat → List PctTok → List Char
  | 0, _ => []
  | _, [] => []
  | Nat.succ fuel, PctTok.lit c :: rest => c :: unquoteAux fuel rest
  | Nat.succ fuel, PctTok.byte b :: rest =>
      utf8Decode (b :: leadingBytes rest) ++ unquoteAux fuel (dropBytes rest)

/-- Model of `urllib.parse.unquote`. -/
def unquote (s : List Char) : List Char :=
  unquoteAux (pctTokens s).length (pctTokens s)

/-! ### urllib.parse: urlparse and parse_qs -/

/-- The query component of a URL, as `urlparse` computes it: the fragment
is split off at the first `#`, then the query is everything after the
first `?` of what remains (empty when there is no `?`). -/
def getQuery (url : List Char) : List Char :=
  let u := if url.contains '#' then url.takeWhile (fun c => c != '#') else url
  if u.contains '?' then (u.dropWhile (fun c => c != '?')).drop 1 else []

/-- Python `field.split("=", 1)` as used by `parse_qsl`: `none` when the
field has no `=` (such fields are skipped), otherwise the name and the
value (everything after the first `=`). -/
def splitFirstEq (field : List Char) : Option (List Char × List Char) :=
  if field.contains '=' then
    some (field.takeWhile (fun c => c != '='),
          (field.dropWhile (fun c => c != '=')).drop 1)
  else none

/-- One field of a query string, processed as `parse_qsl` does with the
default options: empty fields, fields without `=` and fields with an empty
value are dropped; `+` becomes a space and percent-escapes are decoded in
both the name and the value. -/
def parseQslField (field : List Char) : Option (List Char × List Char) :=
  if field.isEmpty then none
  else
    match splitFirstEq field with
    | none => none
    | some (n, v) =>
        if v.isEmpty then none
        else some (unquote (pyReplace '+' ' ' n), unquote (pyReplace '+' ' ' v))

/-- Model of `urllib.parse.parse_qsl` with default options: split the query
on `&` and process each field. -/
def parseQsl (qs : List Char) : List (List Char × List Char) :=
  (pySplit (lc ("&")) qs).filterMap parseQslField

/-- `parse_qs(qs).get(name)` followed by taking the first element of the
value list: the value of the first occurrence of `name`, or `none` when the
key is absent (`parse_qs` groups `parse_qsl` pairs in occurrence order, so
`[0]` of the grouped list is the first pair's value). -/
def parseQsFirst (name : List Char) (qs : List Char) : Option (List Char) :=
  List.lookup name (parseQsl qs)

/-! ### auth.py: TapDynamicsBCAuth -/

/-- `TapDynamicsBCAuth.is_token_valid` (auth.py lines 25-39).  `expiresIn`
is the credential lifetime in seconds (`None` when unset), `lastRefreshed`
and `now` are instants in seconds; the elapsed time is
`now - lastRefreshed` as in `(utils.now() - self.last_refreshed)
.total_seconds()`.  `not self.expires_in` is true for both `None` and `0`. -/
def is_token_valid (expiresIn : Option Int) (lastRefreshed : Option Int)
    (now : Int) : Bool :=
  match lastRefreshed with
  | none => false
  | some lr =>
      match expiresIn with
      | none => true
      | some e => if e = 0 then true else decide (e > now - lr)

/-! ### client.py: dynamicsBcStream -/

/-- `dynamicsBcStream.get_next_page_token` (client.py lines 71-96).  The
input is the first `$.['@odata.nextLink']` match of the response body
(`none` when the key is absent; `urlparse(None)` behaves as `urlparse("")`
because `_coerce_args` decodes `None` to the empty string, so the absent
case also falls through to `return None`).  When the parsed query has both
an `aid` and a `$skiptoken` key, the token re-encodes their first values. -/
def get_next_page_token (nextLink : Option (List Char)) : Option (List Char) :=
  let q := getQuery (match nextLink with | none => [] | some u => u)
  match parseQsFirst (lc ("aid")) q, parseQsFirst (lc ("$skiptoken")) q with
  | some a, some s => some (lc ("&aid=") ++ a ++ lc ("&$skiptoken=") ++ s)
  | _, _ => none

/-- `next_page_token.split("aid=")[-1].split("&")[0]` (client.py line 110). -/
def decodeAid (tok : List Char) : List Char :=
  pyFirst (pySplit (lc ("&")) (pyLast (pySplit (lc ("aid=")) tok)))

/-- `next_page_token.split("$skiptoken=")[-1]` (client.py line 111). -/
def decodeSkip (tok : List Char) : List Char :=
  pyLast (pySplit (lc ("$skiptoken=")) tok)

/-- Python truthiness of an optional string (`if self.expand:`,
`if next_page_token:`): false for `None` and for the empty string. -/
def optTruthy : Option (List Char) → Bool
  | none => false
  | some s => !s.isEmpty

/-- A naive datetime (year, month, day, hour, minute, second). -/
structure PyDateTime : Type where
  year : Nat
  month : Nat
  day : Nat
  hour : Nat
  minute : Nat
  second : Nat
deriving DecidableEq

/-- Decimal digits of a natural number (Python `str(n)`). -/
def natChars (n : Nat) : List Char := (Nat.repr n).data

/-- Zero-pad to two digits (strftime `%m`, `%d`, `%H`, `%M`, `%S`). -/
def pad2 (n : Nat) : List Char :=
  if n < 10 then '0' :: natChars n else natChars n

/-- Zero-pad to four digits (strftime `%Y`). -/
def pad4 (n : Nat) : List Char :=
  List.replicate (4 - (natChars n).length) '0' ++ natChars n

/-- `start_date.strftime("%Y-%m-%dT%H:%M:%SZ")` (client.py line 105). -/
def strftimeTs (t : PyDateTime) : List Char :=
  pad4 t.year ++ lc ("-") ++ pad2 t.month ++ lc ("-") ++ pad2 t.day ++
    lc ("T") ++ pad2 t.hour ++ lc (":") ++ pad2 t.minute ++ lc (":") ++
    pad2 t.second ++ lc ("Z")

/-- Modelled from the spec: `singer_sdk` `Stream.get_starting_timestamp`,
which the repository calls but does not define.  Per the spec, the start
date is the "incremental floor" and the watermark is "used to build a
server-side filter for the next run": the starting timestamp is the prior
watermark for the partition when one exists, else the configured start
date. -/
def get_starting_timestamp (bookmark : Option PyDateTime)
    (configStartDate : PyDateTime) : PyDateTime :=
  match bookmark with
  | some b => b
  | none => configStartDate

/-- `dynamicsBcStream.get_url_params` (client.py lines 98-112) as the
association list of query parameters in insertion order.  `startingTs` is
the value of `self.get_starting_timestamp(context)` (only consulted when
the replication key is truthy, as in the source). -/
def get_url_params (replicationKey : Option (List Char))
    (startingTs : PyDateTime) (expand : Option (List Char))
    (nextPageToken : Option (List Char)) : List (List Char × List Char) :=
  (if optTruthy replicationKey then
      [(lc ("$filter"),
        replicationKey.getD [] ++ lc (" gt ") ++ strftimeTs startingTs)]
    else []) ++
  (if optTruthy expand then [(lc ("$expand"), expand.getD [])] else []) ++
  (if optTruthy nextPageToken then
      [(lc ("aid"), decodeAid (nextPageToken.getD [])),
       (lc ("$skiptoken"), decodeSkip (nextPageToken.getD []))]
    else [])

/-- The environment-name preprocessing of `dynamicsBcStream.url_base`
(client.py lines 18-28): when the configured name contains `?`, keep only
the portion before the first `?`. -/
def url_base_env_name (cfgName : List Char) : List Char :=
  if cfgName.contains '?' then pyFirst (pySplit (lc ("?")) cfgName)
  else cfgName

/-- `dynamicsBcStream.validate_env` (client.py lines 48-57).  The catalog
is the parsed body of the environments endpoint: `none` when it has no
`"value"` key, otherwise the list of entry names.  The result is `true`
when the function returns `True` and `false` when it raises
`Exception("Invalid environment name provided.")`. -/
def validate_env (envName : List Char)
    (catalog : Option (List (List Char))) : Bool :=
  let e := pyLower envName
  match catalog with
  | some entries => entries.any (fun n => containsSub (pyLower n) e)
  | none => false

/-- The validation performed while building `url_base`: strip a query
suffix from the configured name, then `validate_env`. -/
def url_base_validates (cfgName : List Char)
    (catalog : Option (List (List Char))) : Bool :=
  validate_env (url_base_env_name cfgName) catalog

/-- `dynamicsBcStream.get_environments_list` (client.py lines 34-45) as a
state transformer over one stream instance.  `cache` is the instance
attribute `self.envs_list` (the class default is `None`), `truthy` is
Python truthiness of the parsed catalog and `fetched` is the catalog the
environments endpoint would return.  The result is the returned catalog,
the new value of `self.envs_list`, and the number of HTTP requests
performed by this call (0 or 1). -/
def get_environments_list {α : Type} (truthy : α → Bool)
    (cache : Option α) (fetched : α) : α × Option α × Nat :=
  match cache with
  | some c => if truthy c then (c, some c, 0) else (fetched, some fetched, 1)
  | none => (fetched, some fetched, 1)

/-- Total number of catalog requests when each stream instance in a
process performs one environment validation: each instance consults its
own `envs_list` attribute. -/
def streamsFetchTotal {α : Type} (truthy : α → Bool) (fetched : α)
    (instanceCaches : List (Option α)) : Nat :=
  (instanceCaches.map
    (fun c => (get_environments_list truthy c fetched).2.2)).sum

/-! ### Lemmas about findSub and pySplit -/

lemma containsSub_nil_left (x : List Char) : containsSub [] x = true := by
  cases x <;> simp [containsSub, findSub, List.isPrefixOf]

lemma findSub_nil_of_ne (sep : List Char) (h : sep ≠ []) :
    findSub sep [] = none := by
  cases sep with
  | nil => exact absurd rfl h
  | cons c cs => simp [findSub, List.isPrefixOf]

lemma findSub_cons_of_not_isPrefixOf (sep : List Char) (c : Char)
    (s : List Char) (h : sep.isPrefixOf (c :: s) = false) :
    findSub sep (c :: s) = (findSub sep s).map (· + 1) := by
  simp [findSub, h]

lemma findSub_eq_zero (sep s : List Char) (hsep : sep ≠ [])
    (h : sep.isPrefixOf s = true) : findSub sep s = some 0 := by
  cases s with
  | nil =>
      rw [List.isPrefixOf_iff_prefix] at h
      exact absurd (List.prefix_nil.mp h) hsep
  | cons c r => simp [findSub, h]

lemma findSub_sep_append (sep t : List Char) (hsep : sep ≠ []) :
    findSub sep (sep ++ t) = some 0 := by
  apply findSub_eq_zero sep _ hsep
  rw [List.isPrefixOf_iff_prefix]
  exact List.prefix_append sep t

lemma isPrefixOf_cons_ne (d c : Char) (p t : List Char) (h : d ≠ c) :
    (d :: p).isPrefixOf (c :: t) = false := by
  simp [List.isPrefixOf, h]

lemma isSuffixOf_cons_of_isSuffixOf (t x : List Char) (c : Char)
    (h : t.isSuffixOf x = true) : t.isSuffixOf (c :: x) = true := by
  rw [List.isSuffixOf_iff_suffix] at h ⊢
  exact h.trans (List.suffix_cons c x)

lemma isSuffixOf_concat_ne (t x : List Char) (c : Char) (ht : t ≠ [])
    (h : t.getLast? ≠ some c) : t.isSuffixOf (x ++ [c]) = false := by
  by_contra hcon
  rw [Bool.not_eq_false, List.isSuffixOf_iff_suffix] at hcon
  obtain ⟨pre, hpre⟩ := hcon
  have h1 : (pre ++ t).getLast? = some c := by
    rw [hpre]; exact List.getLast?_concat x
  rw [List.getLast?_append_of_ne_nil pre ht] at h1
  exact h h1

/-- The central decomposition: when `sep` does not occur in `x` and no
occurrence of `sep` straddles the boundary between `x` and `y`, searching
in `x ++ y` is searching in `y`, shifted. -/
lemma findSub_append (sep x y : List Char)
    (hx : containsSub sep x = false)
    (hspan : ∀ k, 0 < k → k < sep.length →
      ((sep.take k).isSuffixOf x && (sep.drop k).isPrefixOf y) = false) :
    findSub sep (x ++ y) = (findSub sep y).map (· + x.length) := by
  have hsep : sep ≠ [] := by
    intro h; rw [h] at hx; rw [containsSub_nil_left] at hx; exact absurd hx (by simp)
  induction x with
  | nil =>
      simp only [List.nil_append, List.length_nil]
      cases findSub sep y <;> simp
  | cons c x ih =>
      have hp : sep.isPrefixOf (c :: x) = false := by
        by_contra hcp
        rw [Bool.not_eq_false] at hcp
        have : findSub sep (c :: x) = some 0 := by simp [findSub, hcp]
        simp [containsSub, this] at hx
      have hx' : containsSub sep x = false := by
        simp only [containsSub, findSub, hp] at hx
        simp only [containsSub]
        rcases h : findSub sep x with _ | i
        · rfl
        · rw [h] at hx; simp at hx
      have hspan' : ∀ k, 0 < k → k < sep.length →
          ((sep.take k).isSuffixOf x && (sep.drop k).isPrefixOf y) = false := by
        intro k hk0 hkl
        have := hspan k hk0 hkl
        rcases hsx : (sep.take k).isSuffixOf x with _ | _
        · simp [hsx]
        · rw [isSuffixOf_cons_of_isSuffixOf _ _ c hsx] at this
          simpa using this
      have hpxy : sep.isPrefixOf (c :: x ++ y) = false := by
        by_contra hcp
        rw [Bool.not_eq_false, List.isPrefixOf_iff_prefix] at hcp
        by_cases hlen : sep.length ≤ (c :: x).length
        · have : sep <+: (c :: x) :=
            List.prefix_of_prefix_length_le hcp (by simp) hlen
          rw [← List.isPrefixOf_iff_prefix] at this
          rw [this] at hp
          exact absurd hp (by simp)
        · push_neg at hlen
          obtain ⟨t, ht⟩ := hcp
          have ht' : sep ++ t = (c :: x) ++ y := by simpa using ht
          have hk0 : 0 < (c :: x).length := by simp
          have htake : sep.take (c :: x).length = c :: x := by
            have h3 := congrArg (List.take (c :: x).length) ht'
            rwa [List.take_append_eq_append_take,
              Nat.sub_eq_zero_of_le (Nat.le_of_lt hlen), List.take_zero,
              List.append_nil, List.take_left] at h3
          have hdrop : (sep.drop (c :: x).length).isPrefixOf y = true := by
            have h3 := congrArg (List.drop (c :: x).length) ht'
            rw [List.drop_append_eq_append_drop,
              Nat.sub_eq_zero_of_le (Nat.le_of_lt hlen), List.drop_zero,
              List.drop_left] at h3
            rw [List.isPrefixOf_iff_prefix]
            exact ⟨t, h3⟩
          have hsuf : (sep.take (c :: x).length).isSuffixOf (c :: x) = true := by
            rw [htake, List.isSuffixOf_iff_suffix]
          have := hspan (c :: x).length hk0 hlen
          rw [hsuf, hdrop] at this
          simp at this
      have step : findSub sep ((c :: x) ++ y) = (findSub sep (x ++ y)).map (· + 1) := by
        simpa using findSub_cons_of_not_isPrefixOf sep c (x ++ y) hpxy
      rw [step, ih hx' hspan']
      cases findSub sep y <;> simp [Nat.add_assoc]

lemma containsSub_append_false (sep x y : List Char)
    (hx : containsSub sep x = false) (hy : containsSub sep y = false)
    (hspan : ∀ k, 0 < k → k < sep.length →
      ((sep.take k).isSuffixOf x && (sep.drop k).isPrefixOf y) = false) :
    containsSub sep (x ++ y) = false := by
  unfold containsSub
  rw [findSub_append sep x y hx hspan]
  unfold containsSub at hy
  rcases h : findSub sep y with _ | i
  · simp
  · rw [h] at hy; simp at hy

lemma findSub_some_ne_nil (sep s : List Char) (i : Nat) (hsep : sep ≠ [])
    (h : findSub sep s = some i) : s ≠ [] := by
  intro hnil
  rw [hnil, findSub_nil_of_ne sep hsep] at h
  exact absurd h (by simp)

lemma pySplitAux_succ (sep : List Char) (fuel : Nat) (s : List Char) :
    pySplitAux sep (fuel + 1) s =
      match findSub sep s with
      | none => [s]
      | some i => s.take i :: pySplitAux sep fuel (s.drop (i + sep.length)) := rfl

lemma pySplitAux_congr (sep : List Char) (hsep : sep ≠ []) :
    ∀ f₁ f₂ s, s.length < f₁ → s.length < f₂ →
      pySplitAux sep f₁ s = pySplitAux sep f₂ s := by
  intro f₁
  induction f₁ with
  | zero => intro f₂ s h1 _; exact absurd h1 (by omega)
  | succ f ih =>
      intro f₂ s h1 h2
      cases f₂ with
      | zero => exact absurd h2 (by omega)
      | succ g =>
          rcases hf : findSub sep s with _ | i
          · rw [pySplitAux_succ, pySplitAux_succ, hf]
          · have hs : s ≠ [] := findSub_some_ne_nil sep s i hsep hf
            have hlen : (s.drop (i + sep.length)).length < s.length := by
              rw [List.length_drop]
              have h3 : 0 < s.length := List.length_pos.mpr hs
              have h4 : 0 < sep.length := List.length_pos.mpr hsep
              omega
            rw [pySplitAux_succ, pySplitAux_succ, hf]
            show List.take i s :: pySplitAux sep f (s.drop (i + sep.length)) =
              List.take i s :: pySplitAux sep g (s.drop (i + sep.length))
            rw [ih (g) (s.drop (i + sep.length)) (by omega) (by omega)]

lemma pySplit_eq_single (sep s : List Char) (h : findSub sep s = none) :
    pySplit sep s = [s] := by
  unfold pySplit
  rw [pySplitAux_succ, h]

lemma pySplit_eq_cons (sep s : List Char) (i : Nat) (hsep : sep ≠ [])
    (h : findSub sep s = some i) :
    pySplit sep s = s.take i :: pySplit sep (s.drop (i + sep.length)) := by
  unfold pySplit
  rw [pySplitAux_succ, h]
  show List.take i s :: pySplitAux sep s.length (s.drop (i + sep.length)) = _
  have hs : s ≠ [] := findSub_some_ne_nil sep s i hsep h
  have hlen : (s.drop (i + sep.length)).length < s.length := by
    rw [List.length_drop]
    have h3 : 0 < s.length := List.length_pos.mpr hs
    have h4 : 0 < sep.length := List.length_pos.mpr hsep
    omega
  rw [pySplitAux_congr sep hsep s.length ((s.drop (i + sep.length)).length + 1)
    (s.drop (i + sep.length)) (by omega) (by omega)]

lemma pySplit_append_sep (sep u t : List Char) (hsep : sep ≠ [])
    (hfind : findSub sep (u ++ sep ++ t) = some u.length) :
    pySplit sep (u ++ sep ++ t) = u :: pySplit sep t := by
  rw [pySplit_eq_cons sep _ u.length hsep hfind]
  congr 1
  · rw [List.append_assoc, List.take_left]
  · congr 1
    have : u.length + sep.length = (u ++ sep).length := (List.length_append u sep).symm
    rw [this, List.drop_left]

lemma findSub_boundary (sep u t : List Char)
    (hu : containsSub sep u = false)
    (hspan : ∀ k, 0 < k → k < sep.length →
      ((sep.take k).isSuffixOf u && (sep.drop k).isPrefixOf (sep ++ t)) = false) :
    findSub sep (u ++ sep ++ t) = some u.length := by
  have hsep : sep ≠ [] := by
    intro h; rw [h] at hu; rw [containsSub_nil_left] at hu
    exact absurd hu (by simp)
  rw [List.append_assoc, findSub_append sep u (sep ++ t) hu hspan,
    findSub_sep_append sep t hsep]
  simp

lemma findSub_eq_none_of_not_contains (sep s : List Char)
    (h : containsSub sep s = false) : findSub sep s = none := by
  unfold containsSub at h
  rcases hf : findSub sep s with _ | i
  · rfl
  · rw [hf] at h; simp at h

lemma decodeAid_round (a s : List Char)
    (h1 : containsSub (lc ("&")) a = false)
    (h2 : containsSub (lc ("aid=")) a = false)
    (h3 : containsSub (lc ("aid=")) s = false) :
    decodeAid (lc ("&aid=") ++ a ++ lc ("&$skiptoken=") ++ s) = a := by
  have hA : lc ("aid=") ≠ [] := by decide
  have hAmp : lc ("&") ≠ [] := by decide
  -- the text after the first "aid=" marker
  have hnoR : containsSub (lc ("aid=")) (a ++ (lc ("&$skiptoken=") ++ s)) = false := by
    apply containsSub_append_false _ _ _ h2
    · apply containsSub_append_false _ _ _ (by decide) h3
      intro k hk0 hkl
      rw [show (lc ("aid=")).length = 4 from rfl] at hkl
      have hc : ((lc ("aid=")).take k).isSuffixOf (lc ("&$skiptoken=")) = false := by
        interval_cases k <;> decide
      rw [hc, Bool.false_and]
    · intro k hk0 hkl
      rw [show (lc ("aid=")).length = 4 from rfl] at hkl
      have hc : ((lc ("aid=")).drop k).isPrefixOf (lc ("&$skiptoken=") ++ s) = false := by
        show ((lc ("aid=")).drop k).isPrefixOf ('&' :: (lc ("$skiptoken=") ++ s)) = false
        interval_cases k
        · rw [show (lc ("aid=")).drop 1 = 'i' :: lc ("d=") from rfl]
          exact isPrefixOf_cons_ne _ _ _ _ (by decide)
        · rw [show (lc ("aid=")).drop 2 = 'd' :: lc ("=") from rfl]
          exact isPrefixOf_cons_ne _ _ _ _ (by decide)
        · rw [show (lc ("aid=")).drop 3 = '=' :: lc ("") from rfl]
          exact isPrefixOf_cons_ne _ _ _ _ (by decide)
      rw [hc, Bool.and_false]
  have hfind : findSub (lc ("aid="))
      (lc ("&") ++ lc ("aid=") ++ (a ++ (lc ("&$skiptoken=") ++ s))) =
      some (lc ("&")).length := by
    apply findSub_boundary _ _ _ (by decide)
    intro k hk0 hkl
    rw [show (lc ("aid=")).length = 4 from rfl] at hkl
    have hc : ((lc ("aid=")).take k).isSuffixOf (lc ("&")) = false := by
      interval_cases k <;> decide
    rw [hc, Bool.false_and]
  have hsplit1 : pySplit (lc ("aid="))
      (lc ("&") ++ lc ("aid=") ++ (a ++ (lc ("&$skiptoken=") ++ s))) =
      lc ("&") :: pySplit (lc ("aid=")) (a ++ (lc ("&$skiptoken=") ++ s)) :=
    pySplit_append_sep _ _ _ hA hfind
  have hsplit2 : pySplit (lc ("aid=")) (a ++ (lc ("&$skiptoken=") ++ s)) =
      [a ++ (lc ("&$skiptoken=") ++ s)] :=
    pySplit_eq_single _ _ (findSub_eq_none_of_not_contains _ _ hnoR)
  have htok : lc ("&aid=") ++ a ++ lc ("&$skiptoken=") ++ s =
      lc ("&") ++ lc ("aid=") ++ (a ++ (lc ("&$skiptoken=") ++ s)) := by
    simp only [List.append_assoc]
    rfl
  have hlast : pyLast (pySplit (lc ("aid="))
      (lc ("&aid=") ++ a ++ lc ("&$skiptoken=") ++ s)) =
      a ++ (lc ("&$skiptoken=") ++ s) := by
    rw [htok, hsplit1, hsplit2]
    simp [pyLast]
  -- second stage: splitting the remainder at "&" recovers a
  have hfind2 : findSub (lc ("&")) (a ++ lc ("&") ++ (lc ("$skiptoken=") ++ s)) =
      some a.length := by
    apply findSub_boundary _ _ _ h1
    intro k hk0 hkl
    rw [show (lc ("&")).length = 1 from rfl] at hkl
    omega
  have hReq : a ++ (lc ("&$skiptoken=") ++ s) =
      a ++ lc ("&") ++ (lc ("$skiptoken=") ++ s) := by
    rw [List.append_assoc]
    rfl
  have hsplit3 : pySplit (lc ("&")) (a ++ (lc ("&$skiptoken=") ++ s)) =
      a :: pySplit (lc ("&")) (lc ("$skiptoken=") ++ s) := by
    rw [hReq]
    exact pySplit_append_sep _ _ _ hAmp hfind2
  unfold decodeAid
  rw [hlast, hsplit3]
  simp [pyFirst]

lemma decodeSkip_round (a s : List Char)
    (h4 : containsSub (lc ("$skiptoken=")) a = false)
    (h5 : containsSub (lc ("$skiptoken=")) s = false) :
    decodeSkip (lc ("&aid=") ++ a ++ lc ("&$skiptoken=") ++ s) = s := by
  have hS : lc ("$skiptoken=") ≠ [] := by decide
  have hnoU : containsSub (lc ("$skiptoken=")) ((lc ("&aid=") ++ a) ++ lc ("&")) = false := by
    apply containsSub_append_false
    · apply containsSub_append_false _ _ _ (by decide) h4
      intro k hk0 hkl
      rw [show (lc ("$skiptoken=")).length = 11 from rfl] at hkl
      have hc : ((lc ("$skiptoken=")).take k).isSuffixOf (lc ("&aid=")) = false := by
        interval_cases k <;> decide
      rw [hc, Bool.false_and]
    · decide
    · intro k hk0 hkl
      rw [show (lc ("$skiptoken=")).length = 11 from rfl] at hkl
      have hc : ((lc ("$skiptoken=")).drop k).isPrefixOf (lc ("&")) = false := by
        interval_cases k <;> decide
      rw [hc, Bool.and_false]
  have hfind : findSub (lc ("$skiptoken="))
      (((lc ("&aid=") ++ a) ++ lc ("&")) ++ lc ("$skiptoken=") ++ s) =
      some ((lc ("&aid=") ++ a) ++ lc ("&")).length := by
    apply findSub_boundary _ _ _ hnoU
    intro k hk0 hkl
    rw [show (lc ("$skiptoken=")).length = 11 from rfl] at hkl
    have hc : ((lc ("$skiptoken=")).take k).isSuffixOf ((lc ("&aid=") ++ a) ++ lc ("&")) = false :=
      isSuffixOf_concat_ne _ _ '&' (by interval_cases k <;> decide)
        (by interval_cases k <;> decide)
    rw [hc, Bool.false_and]
  have hsplit1 : pySplit (lc ("$skiptoken="))
      (((lc ("&aid=") ++ a) ++ lc ("&")) ++ lc ("$skiptoken=") ++ s) =
      ((lc ("&aid=") ++ a) ++ lc ("&")) :: pySplit (lc ("$skiptoken=")) s :=
    pySplit_append_sep _ _ _ hS hfind
  have hsplit2 : pySplit (lc ("$skiptoken=")) s = [s] :=
    pySplit_eq_single _ _ (findSub_eq_none_of_not_contains _ _ h5)
  have htok : lc ("&aid=") ++ a ++ lc ("&$skiptoken=") ++ s =
      (((lc ("&aid=") ++ a) ++ lc ("&")) ++ lc ("$skiptoken=")) ++ s := by
    simp only [List.append_assoc]
    rfl
  unfold decodeSkip
  rw [htok, hsplit1, hsplit2]
  simp [pyLast]

/-! ### streams.py -/

/-- A naive date (the result of `datetime.date`). -/
structure PyDate : Type where
  year : Nat
  month : Nat
  day : Nat
deriving DecidableEq

/-- `current_date.strftime("%Y-%m-%dT23:59:59.999Z")` (streams.py line 748);
only `%Y`, `%m`, `%d` are directives, the time part is literal text. -/
def strftimeDayEnd (d : PyDate) : List Char :=
  pad4 d.year ++ lc ("-") ++ pad2 d.month ++ lc ("-") ++ pad2 d.day ++
    lc ("T23:59:59.999Z")

/-- `TrialBalanceStream.get_url_params` (streams.py lines 730-761).
`ctxYear` is `context.get("year")` (`request_records` always sets it),
`cfgStartYear` is the year of the parsed `start_date` configuration value
(the default when the context has no year), `currentDate` is
`datetime.now(timezone.utc).date()`. -/
def trialBalance_get_url_params (ctxYear : Option Nat) (cfgStartYear : Nat)
    (currentDate : PyDate) (expand : Option (List Char))
    (nextPageToken : Option (List Char)) : List (List Char × List Char) :=
  let year := ctxYear.getD cfgStartYear
  let startOfYear := natChars year ++ lc ("-01-01")
  let endOfYear :=
    if year = currentDate.year then strftimeDayEnd currentDate
    else natChars year ++ lc ("-12-31")
  [(lc ("$filter"),
    lc ("dateFilter ge ") ++ startOfYear ++ lc (" and dateFilter le ") ++ endOfYear)] ++
  (if optTruthy expand then [(lc ("$expand"), expand.getD [])] else []) ++
  (if optTruthy nextPageToken then
      [(lc ("aid"), decodeAid (nextPageToken.getD [])),
       (lc ("$skiptoken"), decodeSkip (nextPageToken.getD []))]
    else [])

/-- One server response, as the page loop consumes it: the parsed record
rows and the first `$.['@odata.nextLink']` match of the body. -/
structure PageResponse : Type where
  rows : List Nat
  nextLink : Option (List Char)

/-- Outcome of one year's inner page loop of
`TrialBalanceStream.request_records`. -/
inductive PageLoopResult : Type
  | records (rs : List Nat)
  | loopError
  | fuelOut
deriving DecidableEq

/-- Python truthiness of `next_page_token` (`finished = not
next_page_token` and `if next_page_token and ...`). -/
def tokenTruthy : Option (List Char) → Bool
  | none => false
  | some t => !t.isEmpty

/-- The inner `while not finished` page loop of
`TrialBalanceStream.request_records` (streams.py lines 775-791): request
with the previous token, accumulate the parsed rows, compute the next
token with `get_next_page_token`; raise `RuntimeError` ("Loop detected in
pagination") when the new token is truthy and equal to the previous one,
finish when the new token is falsy, otherwise continue with the new token.
`server` maps the token sent to the response received; `fuel` bounds the
number of requests (the Python loop is unbounded, `fuelOut` marks an
extraction that is still requesting pages when the bound runs out). -/
def trialBalance_page_loop (server : Option (List Char) → PageResponse) :
    Nat → Option (List Char) → List Nat → PageLoopResult
  | 0, _, _ => PageLoopResult.fuelOut
  | Nat.succ fuel, prev, acc =>
      let resp := server prev
      let acc2 := acc ++ resp.rows
      let next := get_next_page_token resp.nextLink
      if tokenTruthy next = true ∧ next = prev then PageLoopResult.loopError
      else if tokenTruthy next = true then
        trialBalance_page_loop server fuel next acc2
      else PageLoopResult.records acc2

/-- The successive pagination tokens produced by the page loop: entry `n`
is the token computed from the response of request `n`. -/
def pageTokenTrace (server : Option (List Char) → PageResponse) :
    Nat → Option (List Char) → List (Option (List Char))
  | 0, _ => []
  | Nat.succ n, prev =>
      let next := get_next_page_token (server prev).nextLink
      next :: pageTokenTrace server n next

/-- The list of years the outer loop of
`TrialBalanceStream.request_records` iterates over (streams.py lines
772-794): `year = start_date.year; while year <= current_date.year: ...;
year += 1`. -/
def trialBalanceYears (startDate currentDate : PyDate) : List Nat :=
  List.range' startDate.year (currentDate.year + 1 - startDate.year)

/-- The `$filter` parameter of the first request of each year window
issued by `TrialBalanceStream.request_records` (no expansion is configured
on the stream and the first request of a window carries no page token). -/
def trialBalanceYearWindows (startDate currentDate : PyDate) : List (List Char) :=
  (trialBalanceYears startDate currentDate).map
    (fun y =>
      (List.lookup (lc ("$filter"))
        (trialBalance_get_url_params (some y) startDate.year currentDate
          none none)).getD [])

/-- Outcome of validating a response. -/
inductive ValidationOutcome : Type
  | ok
  | fatal
  | retriable
deriving DecidableEq

/-- Modelled from the spec: `singer_sdk` `RESTStream.validate_response`,
which the repository calls but does not define.  Per the spec, a non-2xx
status maps to a typed failure: 4xx except 429 is an authoritative error,
fatal for the branch; 429 and 5xx are transient and retried. -/
def base_validate_response (status : Nat) : ValidationOutcome :=
  if 400 ≤ status ∧ status < 500 ∧ status ≠ 429 then ValidationOutcome.fatal
  else if status = 429 ∨ (500 ≤ status ∧ status < 600) then ValidationOutcome.retriable
  else ValidationOutcome.ok

/-- `GLEntriesDimensionsStream.validate_response` (streams.py lines
642-646): a 404 is only logged (no exception is raised, so the record loop
continues), every other status is delegated to the base validation. -/
def glEntriesDimensions_validate_response (status : Nat) : ValidationOutcome :=
  if status = 404 then ValidationOutcome.ok
  else base_validate_response status

/-- `parse_response` record extraction with `records_jsonpath =
"$.value[*]"`: the rows under the body's `value` key, none when the key is
absent (as in a 404 error body). -/
def parse_response {α : Type} (value : Option (List α)) : List α :=
  match value with
  | some rows => rows
  | none => []

/-- The context dictionary the company streams propagate. -/
structure ChildContext : Type where
  company_id : List Char
  company_name : List Char
deriving DecidableEq

/-- The fields of a parent `companies` record that
`CompaniesStream.get_child_context` reads. -/
structure CompanyRecord : Type where
  id : List Char
  name : List Char
deriving DecidableEq

/-- `CompaniesStream.get_child_context` (streams.py lines 33-59): it
prepares and sends a GET probe to
`/companies({record.id})/companyInformation`; when the decorated request
succeeds it returns `{company_id: record.id, company_name: record.name}`,
and when the request raises `FatalAPIError` it logs a warning and falls
off the end of the function, returning `None`.  `probe` is the outcome of
the decorated request. -/
def companies_get_child_context (record : CompanyRecord)
    (probe : Except Unit Unit) : Option ChildContext :=
  match probe with
  | Except.ok _ => some (ChildContext.mk record.id record.name)
  | Except.error _ => none

/-- `CompanyInformationStream.get_child_context` (streams.py lines 94-95),
the projection shared verbatim by the other child streams: a pure function
of the inbound context. -/
def companyInformation_get_child_context (context : ChildContext) : ChildContext :=
  ChildContext.mk context.company_id context.company_name

/-! ### Claim C1 -/

/-- A next-link whose skiptoken value contains the text `aid=`. -/
def cexUrl : List Char := lc ("https://h/x?aid=A&$skiptoken=zaid=Q")

/-- An arbitrary starting timestamp (the streams in question have no
replication key, so it is never read). -/
def cexTs : PyDateTime := PyDateTime.mk 2024 1 1 0 0 0

/-- C1 counterexample: for the next-link
`https://h/x?aid=A&$skiptoken=zaid=Q`, whose query string contains both an
`aid` and a `$skiptoken` parameter with first values `A` and `zaid=Q`, the
token produced by `get_next_page_token` decodes in `get_url_params` to an
`aid` request parameter `Q`, not the original first value `A`: the
encode-then-decode round-trip of the cursor fails. -/
theorem next_page_token_roundtrip_cex :
    parseQsFirst (lc ("aid")) (getQuery cexUrl) = some (lc ("A")) ∧
    parseQsFirst (lc ("$skiptoken")) (getQuery cexUrl) = some (lc ("zaid=Q")) ∧
    List.lookup (lc ("aid"))
      (get_url_params none cexTs none (get_next_page_token (some cexUrl))) =
      some (lc ("Q")) ∧
    ¬ List.lookup (lc ("aid"))
      (get_url_params none cexTs none (get_next_page_token (some cexUrl))) =
      some (lc ("A")) := by decide

/-- C1 (amended): for every next-link URL whose query string contains both
an `aid` and a `$skiptoken` parameter, provided the decoded first values
contain no `&` character (for the aid) and no occurrence of the literal
texts `aid=` or `$skiptoken=`, the token returned by
`get_next_page_token`, passed back into `get_url_params`, yields request
parameters `aid` and `$skiptoken` exactly equal to the first values of
those two parameters in the original next-link URL. -/
theorem next_page_token_roundtrip (url a s : List Char) (ts : PyDateTime)
    (ha : parseQsFirst (lc ("aid")) (getQuery url) = some a)
    (hs : parseQsFirst (lc ("$skiptoken")) (getQuery url) = some s)
    (h1 : containsSub (lc ("&")) a = false)
    (h2 : containsSub (lc ("aid=")) a = false)
    (h3 : containsSub (lc ("aid=")) s = false)
    (h4 : containsSub (lc ("$skiptoken=")) a = false)
    (h5 : containsSub (lc ("$skiptoken=")) s = false) :
    List.lookup (lc ("aid"))
      (get_url_params none ts none (get_next_page_token (some url))) = some a ∧
    List.lookup (lc ("$skiptoken"))
      (get_url_params none ts none (get_next_page_token (some url))) = some s := by
  have htok : get_next_page_token (some url) =
      some (lc ("&aid=") ++ a ++ lc ("&$skiptoken=") ++ s) := by
    unfold get_next_page_token
    simp only [ha, hs]
  have hne : (lc ("&aid=") ++ a ++ lc ("&$skiptoken=") ++ s).isEmpty = false := rfl
  have hparams : get_url_params none ts none (get_next_page_token (some url)) =
      [(lc ("aid"), decodeAid (lc ("&aid=") ++ a ++ lc ("&$skiptoken=") ++ s)),
       (lc ("$skiptoken"), decodeSkip (lc ("&aid=") ++ a ++ lc ("&$skiptoken=") ++ s))] := by
    rw [htok]
    unfold get_url_params optTruthy
    simp [hne]
    intro hx
    exact absurd hx (by decide)
  rw [hparams]
  have e1 : (lc ("aid") == lc ("aid")) = true := by decide
  have e2 : (lc ("$skiptoken") == lc ("aid")) = false := by decide
  have e3 : (lc ("$skiptoken") == lc ("$skiptoken")) = true := by decide
  constructor
  · simp only [List.lookup, e1, if_pos]
    rw [decodeAid_round a s h1 h2 h3]
  · simp only [List.lookup, e2, e3]
    rw [decodeSkip_round a s h4 h5]

/-- A witness next-link with benign cursor values. -/
def w1Url : List Char :=
  lc ("https://api.businesscentral.dynamics.com/x?aid=77&$skiptoken=abc")

/-- Witness for the amended C1 theorem at a concrete next-link. -/
theorem next_page_token_roundtrip_witness :
    List.lookup (lc ("aid"))
      (get_url_params none cexTs none (get_next_page_token (some w1Url))) =
      some (lc ("77")) ∧
    List.lookup (lc ("$skiptoken"))
      (get_url_params none cexTs none (get_next_page_token (some w1Url))) =
      some (lc ("abc")) :=
  next_page_token_roundtrip w1Url (lc ("77")) (lc ("abc")) cexTs (by decide)
    (by decide) (by decide) (by decide) (by decide) (by decide) (by decide)

/-! ### Claim C2 -/

/-- A next-link resolving to pagination token `&aid=1&$skiptoken=p1`. -/
def linkA : List Char := lc ("https://h/x?aid=1&$skiptoken=p1")

/-- A next-link resolving to pagination token `&aid=2&$skiptoken=p2`. -/
def linkB : List Char := lc ("https://h/x?aid=2&$skiptoken=p2")

/-- A server whose cursor sequence cycles with period two: the first
request and every request carrying the second token are answered with a
next-link for the first token, every request carrying the first token is
answered with a next-link for the second token. -/
def cycServer : Option (List Char) → PageResponse
  | none => PageResponse.mk [0] (some linkA)
  | some t =>
      if t = lc ("&aid=2&$skiptoken=p2") then PageResponse.mk [2] (some linkA)
      else PageResponse.mk [1] (some linkB)

/-- C2 counterexample: against `cycServer` the cursor produced after page 3
repeats the cursor already seen after page 1, yet the page loop raises no
pagination-loop error and keeps issuing requests (after 10 pages it is
still running): a repeat of a previously seen, non-adjacent cursor is not
detected. -/
theorem pagination_repeated_cursor_cex :
    (pageTokenTrace cycServer 3 none).get? 0 =
      some (some (lc ("&aid=1&$skiptoken=p1"))) ∧
    (pageTokenTrace cycServer 3 none).get? 2 =
      some (some (lc ("&aid=1&$skiptoken=p1"))) ∧
    trialBalance_page_loop cycServer 10 none [] = PageLoopResult.fuelOut ∧
    ¬ trialBalance_page_loop cycServer 10 none [] = PageLoopResult.loopError := by
  decide

/-- C2 (amended): the page loop raises the fatal pagination-loop error
exactly when the freshly computed token is truthy and equal to the
immediately preceding token: in that situation the loop stops with
`loopError` instead of issuing further requests.  (A cursor that repeats
an older, non-adjacent value is not detected, as the counterexample
shows.) -/
theorem pagination_adjacent_repeat_raises
    (server : Option (List Char) → PageResponse) (fuel : Nat)
    (prev : Option (List Char)) (acc : List Nat)
    (h : get_next_page_token (server prev).nextLink = prev)
    (ht : tokenTruthy prev = true) :
    trialBalance_page_loop server (fuel + 1) prev acc = PageLoopResult.loopError := by
  simp [trialBalance_page_loop, h, ht]

/-- A server that always answers with the next-link for the first token. -/
def stuckServer : Option (List Char) → PageResponse :=
  fun _ => PageResponse.mk [] (some linkA)

/-- Witness for the amended C2 theorem: a server that echoes the cursor it
was just sent makes the loop raise immediately. -/
theorem pagination_adjacent_repeat_raises_witness :
    trialBalance_page_loop stuckServer 4 (some (lc ("&aid=1&$skiptoken=p1"))) [] =
      PageLoopResult.loopError :=
  pagination_adjacent_repeat_raises stuckServer 3
    (some (lc ("&aid=1&$skiptoken=p1"))) [] (by decide) (by decide)

/-! ### Claim C3 -/

/-- C3: for the configured start date 2023-06-01 and current date
2025-03-10, `TrialBalanceStream.request_records` iterates exactly the
three year windows 2023, 2024 and 2025; each window's `$filter` ranges
from January 1st of the year, the 2023 and 2024 windows are bounded above
by December 31st of their year, and the 2025 window is bounded above by
the current date (the end of the current day), not by 2025-12-31. -/
theorem trial_balance_year_windows_2023_2025 :
    trialBalanceYears (PyDate.mk 2023 6 1) (PyDate.mk 2025 3 10) =
      [2023, 2024, 2025] ∧
    trialBalanceYearWindows (PyDate.mk 2023 6 1) (PyDate.mk 2025 3 10) =
      [lc ("dateFilter ge 2023-01-01 and dateFilter le 2023-12-31"),
       lc ("dateFilter ge 2024-01-01 and dateFilter le 2024-12-31"),
       lc ("dateFilter ge 2025-01-01 and dateFilter le 2025-03-10T23:59:59.999Z")] := by
  decide

/-! ### Claim C4 -/

/-- C4: the validation guarding `url_base` succeeds exactly when the
catalog has a `value` list with some entry whose name, compared
case-insensitively, is a substring of the portion of the configured name
before any `?`; otherwise `validate_env` raises.  In particular the
configured name `PRODUCTION?foo=bar` validates identically to
`production` against every catalog. -/
theorem validate_env_iff_substring (cfgName : List Char)
    (catalog : Option (List (List Char))) :
    (url_base_validates cfgName catalog = true ↔
      ∃ entries, catalog = some entries ∧ ∃ n ∈ entries,
        containsSub (pyLower n) (pyLower (url_base_env_name cfgName)) = true) ∧
    url_base_validates (lc ("PRODUCTION?foo=bar")) catalog =
      url_base_validates (lc ("production")) catalog := by
  constructor
  · unfold url_base_validates validate_env
    cases catalog with
    | none => simp
    | some entries => simp [List.any_eq_true]
  · unfold url_base_validates
    rw [show url_base_env_name (lc ("PRODUCTION?foo=bar")) = lc ("PRODUCTION") from by decide,
      show url_base_env_name (lc ("production")) = lc ("production") from by decide]
    unfold validate_env
    rw [show pyLower (lc ("PRODUCTION")) = pyLower (lc ("production")) from by decide]

/-! ### Claim C5 -/

/-- C5: `is_token_valid` returns false whenever no credential has been
obtained (`last_refreshed` unset, whatever the lifetime); returns true
whenever a credential exists and its lifetime is unset or zero; and
otherwise returns true exactly when the elapsed time since the last
refresh is strictly less than the lifetime. -/
theorem is_token_valid_spec (e lr now : Int) (he : e ≠ 0) :
    is_token_valid none none now = false ∧
    is_token_valid (some e) none now = false ∧
    is_token_valid none (some lr) now = true ∧
    is_token_valid (some 0) (some lr) now = true ∧
    (is_token_valid (some e) (some lr) now = true ↔ now - lr < e) := by
  unfold is_token_valid
  refine ⟨rfl, rfl, rfl, by simp, ?_⟩
  simp [he, gt_iff_lt]

/-- Witness for the C5 theorem at concrete instants. -/
theorem is_token_valid_spec_witness :
    is_token_valid none none 1 = false ∧
    is_token_valid (some 5) none 1 = false ∧
    is_token_valid none (some 0) 1 = true ∧
    is_token_valid (some 0) (some 0) 1 = true ∧
    (is_token_valid (some 5) (some 0) 1 = true ↔ (1 : Int) - 0 < 5) :=
  is_token_valid_spec 5 0 1 (by decide)

/-! ### Claim C6 -/

/-- The configured start date used in the C6 statements. -/
def c6Ts : PyDateTime := PyDateTime.mk 2023 1 1 0 0 0

/-- C6 counterexample: a resource with the incremental field
`lastModifiedDateTime` and no prior watermark for the partition (the
bookmark is `none`) still receives an incremental `$filter` parameter,
built from the configured start date: the filter is not conditional on a
prior watermark existing. -/
theorem incremental_filter_without_watermark_cex :
    List.lookup (lc ("$filter"))
      (get_url_params (some (lc ("lastModifiedDateTime")))
        (get_starting_timestamp none c6Ts) none none) =
      some (lc ("lastModifiedDateTime gt 2023-01-01T00:00:00Z")) := by decide

/-- C6 (amended): the request parameters contain the incremental filter
`<field> gt <ISO-8601 UTC timestamp>` exactly when the resource has a
truthy incremental field; its timestamp is the prior watermark when one
exists and the configured start date otherwise.  Resources without an
incremental field never receive a `$filter` parameter from the base
`get_url_params`. -/
theorem incremental_filter_iff_replication_key (rk : List Char) (hrk : rk ≠ [])
    (bm : Option PyDateTime) (cfg : PyDateTime) (expand tok : Option (List Char))
    (rk0 : Option (List Char)) (h0 : optTruthy rk0 = false) (ts0 : PyDateTime) :
    List.lookup (lc ("$filter")) (get_url_params rk0 ts0 expand tok) = none ∧
    List.lookup (lc ("$filter"))
      (get_url_params (some rk) (get_starting_timestamp bm cfg) expand tok) =
      some (rk ++ lc (" gt ") ++ strftimeTs (get_starting_timestamp bm cfg)) := by
  have e1 : (lc ("$filter") == lc ("$expand")) = false := by decide
  have e2 : (lc ("$filter") == lc ("aid")) = false := by decide
  have e3 : (lc ("$filter") == lc ("$skiptoken")) = false := by decide
  have e4 : (lc ("$filter") == lc ("$filter")) = true := by decide
  constructor
  · unfold get_url_params
    rw [h0]
    rcases he : optTruthy expand <;> rcases htk : optTruthy tok <;>
      simp [List.lookup, e1, e2, e3]
  · have htr : optTruthy (some rk) = true := by
      unfold optTruthy
      cases rk with
      | nil => exact absurd rfl hrk
      | cons c t => rfl
    unfold get_url_params
    rw [htr]
    simp [List.lookup, e4]

/-- Witness for the amended C6 theorem at concrete inputs. -/
theorem incremental_filter_iff_replication_key_witness :
    List.lookup (lc ("$filter")) (get_url_params none c6Ts none none) = none ∧
    List.lookup (lc ("$filter"))
      (get_url_params (some (lc ("lastModifiedDateTime")))
        (get_starting_timestamp none c6Ts) none none) =
      some (lc ("lastModifiedDateTime") ++ lc (" gt ") ++
        strftimeTs (get_starting_timestamp none c6Ts)) :=
  incremental_filter_iff_replication_key (lc ("lastModifiedDateTime"))
    (by decide) none c6Ts none none none (by decide) c6Ts

/-! ### Claim C7 -/

/-- C7: a 404 on the optional per-entry dimension lookups is recovered
locally: `GLEntriesDimensionsStream.validate_response` raises nothing on a
404 (so traversal of sibling branches continues), a 404 error body (with
no `value` key) parses to zero records, while on a non-optional resource
the base validation makes a 404 — like every non-429 4xx — fatal for that
branch. -/
theorem optional_404_recovered (s : Nat) (h1 : 400 ≤ s) (h2 : s < 500)
    (h3 : s ≠ 429) :
    glEntriesDimensions_validate_response 404 = ValidationOutcome.ok ∧
    parse_response (α := Nat) none = [] ∧
    base_validate_response 404 = ValidationOutcome.fatal ∧
    base_validate_response s = ValidationOutcome.fatal := by
  refine ⟨by decide, rfl, by decide, ?_⟩
  unfold base_validate_response
  rw [if_pos ⟨h1, h2, h3⟩]

/-- Witness for the C7 theorem at status 403. -/
theorem optional_404_recovered_witness :
    glEntriesDimensions_validate_response 404 = ValidationOutcome.ok ∧
    parse_response (α := Nat) none = [] ∧
    base_validate_response 404 = ValidationOutcome.fatal ∧
    base_validate_response 403 = ValidationOutcome.fatal :=
  optional_404_recovered 403 (by decide) (by decide) (by decide)

/-! ### Claim C8 -/

/-- C8 counterexample: `CompaniesStream.get_child_context` is not a pure
total function of the parent record and inbound context: for a
well-formed parent record, when its companyInformation probe request
fails with `FatalAPIError` the method returns no context at all (`None`),
rather than a context with the declared keys. -/
theorem child_context_probe_failure_cex :
    companies_get_child_context (CompanyRecord.mk (lc ("c1")) (lc ("Contoso")))
      (Except.error ()) = none := rfl

/-- C8 (amended): `CompanyInformationStream.get_child_context` (shared by
the non-root streams) is a pure projection of the inbound context onto the
declared keys `company_id` and `company_name`;
`CompaniesStream.get_child_context`, which additionally performs an HTTP
probe, returns the context `{company_id: record.id, company_name:
record.name}` whenever the probe succeeds, and `None` when the probe
raises `FatalAPIError`. -/
theorem child_context_amended (record : CompanyRecord) (context : ChildContext) :
    companies_get_child_context record (Except.ok ()) =
      some (ChildContext.mk record.id record.name) ∧
    (∀ pr, companies_get_child_context record (Except.error pr) = none) ∧
    companyInformation_get_child_context context =
      ChildContext.mk context.company_id context.company_name :=
  ⟨rfl, fun _ => rfl, rfl⟩

/-! ### Claim C9 -/

/-- C9 counterexample: `self.envs_list = envs_list` caches on the stream
instance, so in a process with two stream instances (both starting from
the class default `envs_list = None`) one validation by each instance
performs two catalog requests, not at most one per process. -/
theorem envs_cache_per_instance_cex :
    streamsFetchTotal (fun _ : Nat => true) 7 [none, none] = 2 ∧
    ¬ streamsFetchTotal (fun _ : Nat => true) 7 [none, none] ≤ 1 := by decide

/-- C9 (amended): the catalog is fetched at most once per stream
*instance*: a fresh instance's first call fetches (one request) and caches
the catalog, and every subsequent call on the same instance returns the
cached catalog with zero further requests, provided the cached value is
truthy (a non-empty parsed body). -/
theorem envs_cache_once_per_instance {α : Type} (truthy : α → Bool)
    (fetched : α) (h : truthy fetched = true) :
    (get_environments_list truthy none fetched).2.2 = 1 ∧
    (get_environments_list truthy
      (get_environments_list truthy none fetched).2.1 fetched).2.2 = 0 ∧
    (get_environments_list truthy
      (get_environments_list truthy none fetched).2.1 fetched).1 = fetched := by
  unfold get_environments_list
  simp [h]

/-- Witness for the amended C9 theorem. -/
theorem envs_cache_once_per_instance_witness :
    (get_environments_list (fun _ : Nat => true) none 7).2.2 = 1 ∧
    (get_environments_list (fun _ : Nat => true)
      (get_environments_list (fun _ : Nat => true) none 7).2.1 7).2.2 = 0 ∧
    (get_environments_list (fun _ : Nat => true)
      (get_environments_list (fun _ : Nat => true) none 7).2.1 7).1 = 7 :=
  envs_cache_once_per_instance (fun _ : Nat => true) 7 rfl

/-! ### Claim C10 -/

/-- C10: when the response's next-link is absent, or its query string
parses without an `aid` parameter or without a `$skiptoken` parameter,
`get_next_page_token` returns `None`, so the page loop terminates
silently instead of raising or issuing another page request. -/
theorem next_page_token_missing_params_none (link : Option (List Char))
    (h : link = none ∨
      parseQsFirst (lc ("aid")) (getQuery (link.getD [])) = none ∨
      parseQsFirst (lc ("$skiptoken")) (getQuery (link.getD [])) = none) :
    get_next_page_token link = none := by
  cases link with
  | none => rfl
  | some u =>
      unfold get_next_page_token
      rcases h with h | h | h
      · exact absurd h (by simp)
      · simp only [Option.getD] at h
        simp [h]
      · simp only [Option.getD] at h
        simp [h]

/-- Witness for the C10 theorem: a next-link with neither cursor
parameter. -/
theorem next_page_token_missing_params_none_witness :
    get_next_page_token (some (lc ("https://h/x?x=1"))) = none :=
  next_page_token_missing_params_none (some (lc ("https://h/x?x=1")))
    (Or.inr (Or.inl (by decide)))
